import Mathlib

/-!
Verification of the agent process bridge of the VoiceAnki repository
(src/server.js, class CodexAppServer and the surrounding turn queue).

The JavaScript source is shallowly embedded: each method of the bridge is
translated into a pure Lean function over an explicit state record; side
effects (RPC requests written to the subprocess, waiters being resolved or
rejected) are returned as explicit effect lists.  JavaScript objects with
optional fields become structures of Option fields, and JavaScript
truthiness tests on strings are made explicit through strTruthy.
-/

namespace VoiceAnki

/-- Truthiness of an optional JavaScript string value: the field is present
and the string is nonempty. -/
def strTruthy : Option String → Bool
  | some s => !s.isEmpty
  | none => false

/-- JavaScript disjunction a || b on optional string values: keeps the first
truthy operand, otherwise falls through to the second. -/
def orTruthy (a b : Option String) : Option String :=
  if strTruthy a then a else b

/-! ## Notification payloads

Incoming notification parameters (the params object of a method-only
message), as consumed by handleNotification, extractTextFromParams and
summarizeCodexNotification in src/server.js. -/

/-- A content block inside an item, as read by extractTextFromParams:
blocks whose type field is the string "text" contribute their text field. -/
structure Block where
  type : Option String
  text : Option String
deriving DecidableEq, Repr

/-- The item field of a notification payload. -/
structure Item where
  text : Option String
  content : Option (List Block)
deriving DecidableEq, Repr

/-- The delta field of a notification payload. -/
structure Delta where
  text : Option String
deriving DecidableEq, Repr

/-- The turn field of a notification payload, carrying an optional id. -/
structure TurnRef where
  id : Option String
deriving DecidableEq, Repr

/-- The tool field of a notification payload. -/
structure ToolRef where
  name : Option String
deriving DecidableEq, Repr

/-- Notification parameters: the loosely-typed params object of an incoming
notification, restricted to the fields the bridge reads. -/
structure Params where
  turnId : Option String
  turn : Option TurnRef
  turn_id : Option String
  delta : Option Delta
  item : Option Item
  tool : Option ToolRef
  name : Option String
  success : Option Bool
  error : Option String
deriving DecidableEq, Repr

/-- A params value with every field absent. -/
def Params.empty : Params :=
  ⟨none, none, none, none, none, none, none, none, none⟩

/-- Embedding of extractTextFromParams (src/server.js): prefers
params.delta.text when it is a string, then item.text, then the
concatenation of the text blocks of item.content, else the empty string. -/
def extractTextFromParams (p : Params) : String :=
  match p.delta.bind Delta.text with
  | some t => t
  | none =>
    match p.item with
    | none => ""
    | some item =>
      match item.text with
      | some t => t
      | none =>
        match item.content with
        | some blocks =>
          String.join ((blocks.filter (fun b => b.type = some "text")).map
            (fun b => b.text.getD ""))
        | none => ""

/-- Whether the string s starts with the string pre, computed structurally
over the character lists (the startsWith test of the source). -/
def leadChars : List Char → List Char → Bool
  | [], _ => true
  | _ :: _, [] => false
  | a :: as, b :: bs => a == b && leadChars as bs

/-- The startsWith test of the source on strings. -/
def strLeads (s pre : String) : Bool :=
  leadChars pre.toList s.toList

/-- Remove leading and trailing whitespace, computed structurally over the
character list (the trim of the source). -/
def trimStr (s : String) : String :=
  String.mk
    (((s.toList.dropWhile Char.isWhitespace).reverse.dropWhile
        Char.isWhitespace).reverse)

/-- Collapse every maximal run of whitespace to one space character, the
effect of the replace of whitespace-runs by a single space performed by
summarizeCodexNotification on the snippet. -/
def collapseWS (s : String) : String :=
  String.mk ((s.toList.foldl
    (fun (acc : List Char × Bool) c =>
      if c.isWhitespace then
        if acc.2 then acc else (' ' :: acc.1, true)
      else (c :: acc.1, false))
    ([], false)).1.reverse)

/-- Embedding of summarizeCodexNotification (src/server.js): produces the
one-line event-log summary for a notification, or none when the method kind
is not summarized. -/
def summarizeCodexNotification (method : String) (p : Params) : Option String :=
  if method = "turn/completed" then some "turn/completed"
  else if strLeads method "item/" then
    let text := extractTextFromParams p
    if !text.isEmpty then
      let snippet := trimStr (collapseWS text)
      some ("item: " ++
        (if snippet.length > 120 then snippet.take 117 ++ "…" else snippet))
    else some "item: (non-text)"
  else if strLeads method "tool/" then
    let nm := (orTruthy (p.tool.bind ToolRef.name) p.name).getD "tool"
    some (trimStr (method ++ " " ++ nm))
  else if strLeads method "thread/" then some method
  else none

/-! ## The active turn and the notification router -/

/-- The active-turn record of the bridge (this.currentTurn): the optional
server-assigned turn id, the accumulated output and diagnostics, and the
event log. -/
structure CurrentTurn where
  turnId : Option String
  stdout : String
  stderr : String
  events : List String
deriving DecidableEq, Repr

/-- The slice of bridge state read and written by handleNotification:
whether a login waiter is installed, and the active turn if any. -/
structure NotifState where
  loginWaiter : Bool
  currentTurn : Option CurrentTurn
deriving DecidableEq, Repr

/-- Externally visible effects of handling one notification: settling the
login waiter, or settling the active turn waiter on completion. -/
inductive NotifEffect
  | loginResolved (p : Params)
  | loginRejected (msg : String)
  | turnResolved (stdout stderr : String) (events : List String)
deriving DecidableEq, Repr

/-- The turn identifier carried by a notification payload:
params.turnId, else params.turn.id, else params.turn_id, each step taken
only when the earlier value is not truthy. -/
def notifTurnId (p : Params) : Option String :=
  orTruthy p.turnId (orTruthy (p.turn.bind TurnRef.id) p.turn_id)

/-- Embedding of handleNotification (src/server.js) together with
finishTurn: routes one unsolicited notification.  A login-completion
notification settles the login waiter; otherwise, with no active turn the
message is dropped; with an active turn the summary (when any) is pushed
onto the event log, then a truthy notification turn id that differs from a
truthy recorded turn id aborts handling, then a completion notification
settles the turn with the trimmed accumulated texts, and an item
notification appends its extracted text to the accumulated output. -/
def handleNotification (st : NotifState) (method : String) (p : Params) :
    NotifState × List NotifEffect :=
  if method = "account/login/completed" ∧ st.loginWaiter then
    let st' : NotifState := { st with loginWaiter := false }
    if p.success.getD false then (st', [.loginResolved p])
    else
      (st', [.loginRejected ((orTruthy p.error (some "Codex login failed.")).getD
        "Codex login failed.")])
  else
    match st.currentTurn with
    | none => (st, [])
    | some turn =>
      let turn1 : CurrentTurn :=
        match summarizeCodexNotification method p with
        | some s => { turn with events := turn.events ++ [s] }
        | none => turn
      let tid := notifTurnId p
      if strTruthy tid ∧ strTruthy turn1.turnId ∧ tid ≠ turn1.turnId then
        ({ st with currentTurn := some turn1 }, [])
      else if method = "turn/completed" then
        ({ st with currentTurn := none },
          [.turnResolved (trimStr turn1.stdout) (trimStr turn1.stderr) turn1.events])
      else if strLeads method "item/" then
        let text := extractTextFromParams p
        let turn2 : CurrentTurn :=
          if !text.isEmpty then { turn1 with stdout := turn1.stdout ++ text }
          else turn1
        ({ st with currentTurn := some turn2 }, [])
      else
        ({ st with currentTurn := some turn1 }, [])

/-! ## Turn input construction (seed-once) -/

/-- One content item of a turn-start request. -/
structure InputItem where
  type : String
  text : String
deriving DecidableEq, Repr

/-- The text of the one-time seed block: the trimmed system guidance,
followed (when a reference document is configured, i.e. the context string
is nonempty) by the labelled reference document, joined by blank lines,
exactly as assembled by buildTurnInput in src/server.js. -/
def seedBlockText (sysMessage context : String) : String :=
  String.intercalate "\n\n"
    ([trimStr sysMessage] ++
      (if !context.isEmpty then ["Anki Card Spec (follow strictly):\n" ++ context]
       else []))

/-- Embedding of buildTurnInput (src/server.js).  The configured system
guidance and the resolved reference-document text (the result of
readCodexContext, empty when unconfigured) are passed as parameters; the
seeded-thread set is threaded explicitly and returned updated. -/
def buildTurnInput (sysMessage context : String) (seededThreads : List String)
    (prompt threadId : String) : List InputItem × List String :=
  if threadId ∈ seededThreads then
    ([⟨"text", prompt⟩], seededThreads)
  else
    (⟨"text", seedBlockText sysMessage context⟩ :: [⟨"text", prompt⟩],
      threadId :: seededThreads)

/-! ## Full bridge state and the crash reset -/

/-- The failure message used when the subprocess exits. -/
def exitMsg : String := "Codex app-server exited."

/-- The bridge-owned mutable state of CodexAppServer relevant to reset:
whether a subprocess handle is held, the request-identifier counter, the
pending-request table (ids with their method names), the thread-binding
map, the seeded-thread set, the active turn, the collected startup
diagnostics and the login waiter. -/
structure BridgeState where
  procSet : Bool
  nextId : Nat
  pending : List (Nat × String)
  threadByCwd : List (String × String)
  seededThreads : List String
  currentTurn : Option CurrentTurn
  startupStderr : String
  loginWaiter : Bool
deriving DecidableEq, Repr

/-- Waiter rejections performed by reset. -/
inductive ResetEffect
  | rejectPending (id : Nat) (msg : String)
  | rejectTurn (msg : String)
  | rejectLogin (msg : String)
deriving DecidableEq, Repr

/-- Embedding of reset (src/server.js): drops the subprocess handle, clears
the startup diagnostics, the thread bindings and the seeded-thread set,
empties the pending table and rejects every snapshot entry with the
process-exited failure, then rejects and clears the active turn and the
login waiter.  The request-identifier counter is left untouched. -/
def reset (st : BridgeState) : BridgeState × List ResetEffect :=
  ({ procSet := false
     nextId := st.nextId
     pending := []
     threadByCwd := []
     seededThreads := []
     currentTurn := none
     startupStderr := ""
     loginWaiter := false },
   st.pending.map (fun e => ResetEffect.rejectPending e.1 exitMsg)
     ++ (if st.currentTurn.isSome then [ResetEffect.rejectTurn exitMsg] else [])
     ++ (if st.loginWaiter then [ResetEffect.rejectLogin exitMsg] else []))

/-! ## Thread acquisition -/

/-- The thread field of a thread-start response. -/
structure ThreadRef where
  id : Option String
deriving DecidableEq, Repr

/-- A thread-start response body. -/
structure ThreadStartResult where
  thread : Option ThreadRef
deriving DecidableEq, Repr

/-- An outgoing RPC request issued while acquiring a thread. -/
inductive ThreadRpc
  | threadStart (cwd approvalPolicy sandbox : String)
deriving DecidableEq, Repr

/-- Lookup in the thread-binding map for an exact directory string. -/
def lookupThread (m : List (String × String)) (cwd : String) : Option String :=
  (m.find? (fun e => e.1 = cwd)).map Prod.snd

/-- Embedding of getThreadId (src/server.js).  The subprocess's reply to a
thread-start request, when one is issued, is supplied by the oracle
argument resp (an RPC failure or a response body).  Returns the outcome
together with the updated thread-binding map, plus the list of RPC
requests actually issued. -/
def getThreadId (approvalPolicy sandbox : String)
    (threadByCwd : List (String × String)) (cwd : String)
    (resp : Except String ThreadStartResult) :
    Except String (String × List (String × String)) × List ThreadRpc :=
  let cached := lookupThread threadByCwd cwd
  if strTruthy cached then (.ok (cached.getD "", threadByCwd), [])
  else
    let req := [ThreadRpc.threadStart cwd approvalPolicy sandbox]
    match resp with
    | .error e => (.error e, req)
    | .ok r =>
      let threadId := r.thread.bind ThreadRef.id
      if strTruthy threadId then
        (.ok (threadId.getD "", (cwd, threadId.getD "") :: threadByCwd), req)
      else
        (.error "Codex app-server did not return a thread id.", req)

/-! ## Login flow -/

/-- An account-status response body, reduced to the two truthiness tests
ensureLoggedIn performs on it: whether the requiresOpenaiAuth field is
truthy and whether the account field is truthy. -/
structure AuthInfo where
  requiresOpenaiAuth : Bool
  account : Bool
deriving DecidableEq, Repr

/-- Outgoing requests issued by the login flow after the account-status
query has been answered. -/
inductive LoginRpc
  | loginStart (apiKey : String)
deriving DecidableEq, Repr

/-- Outcome of the login flow as seen from ensureLoggedIn once the
account-status response is in hand. -/
inductive LoginOutcome
  | ok
  | missingCredential (msg : String)
  | awaitLoginNotification
deriving DecidableEq, Repr

/-- The missing-credential failure message of ensureLoggedIn. -/
def missingKeyMsg : String :=
  "OPENAI_API_KEY is not set. Codex app-server requires authentication."

/-- Embedding of ensureLoggedIn (src/server.js) from the point where the
account-status response authInfo has arrived; apiKey is the value of the
OPENAI_API_KEY environment variable.  Returns the login-start requests
issued (at most one) and the outcome: immediate success, a fatal
missing-credential failure, or the state of waiting for the asynchronous
login-completed notification. -/
def ensureLoggedIn (authInfo : AuthInfo) (apiKey : Option String) :
    List LoginRpc × LoginOutcome :=
  if !authInfo.requiresOpenaiAuth then ([], .ok)
  else if authInfo.account then ([], .ok)
  else if !strTruthy apiKey then ([], .missingCredential missingKeyMsg)
  else ([.loginStart (apiKey.getD "")], .awaitLoginNotification)

/-! ## Request correlator machine

State machine for sendRpc, the response branch of handleLine, the timeout
handler installed by sendRpc, and the pending-table part of reset, all from
src/server.js.  Events are the points where the pending table or the
identifier counter is touched: a request being sent, a response line with a
numeric identifier arriving, a request timeout firing, and the subprocess
exiting.  Observations record identifier allocations and, in order, the
micro-operations each handler performs on a pending entry (removal from
the table, then settlement of the waiter). -/

/-- Correlator events. -/
inductive RpcEvent
  | send
  | recv (id : Nat) (isError : Bool)
  | timeoutFire (id : Nat)
  | procExit
deriving DecidableEq, Repr

/-- Correlator observations, in the order the source performs them. -/
inductive RpcObs
  | allocated (id : Nat)
  | removed (id : Nat)
  | settled (id : Nat) (rejected : Bool)
  | resetRejected (id : Nat)
deriving DecidableEq, Repr

/-- Correlator state: the identifier counter (this.nextId, starting at 1)
and the identifiers of currently-pending requests (keys of this.pending in
insertion order). -/
structure RpcState where
  nextId : Nat
  pendingIds : List Nat
deriving DecidableEq, Repr

/-- Initial correlator state of a freshly constructed bridge. -/
def rpcInit : RpcState := ⟨1, []⟩

/-- One correlator step.  A send allocates the current counter value,
increments the counter and inserts a pending entry.  A response line whose
identifier matches a pending entry deletes the entry and then settles its
waiter, rejecting exactly when the message carries an error payload; a
response for an unknown identifier is dropped.  A timeout firing for a
still-pending identifier deletes the entry and then rejects its waiter;
the timeout of an already-settled entry was cleared and cannot fire, hence
the guard.  A subprocess exit clears the whole table, rejecting every
snapshot entry (the reset of src/server.js), and leaves the counter
untouched. -/
def rpcStep (st : RpcState) : RpcEvent → RpcState × List RpcObs
  | .send =>
    (⟨st.nextId + 1, st.pendingIds ++ [st.nextId]⟩, [.allocated st.nextId])
  | .recv id isError =>
    if id ∈ st.pendingIds then
      (⟨st.nextId, st.pendingIds.erase id⟩, [.removed id, .settled id isError])
    else (st, [])
  | .timeoutFire id =>
    if id ∈ st.pendingIds then
      (⟨st.nextId, st.pendingIds.erase id⟩, [.removed id, .settled id true])
    else (st, [])
  | .procExit =>
    (⟨st.nextId, []⟩, st.pendingIds.map RpcObs.resetRejected)

/-- Run the correlator from a given state, concatenating observations. -/
def rpcRunFrom (st : RpcState) : List RpcEvent → RpcState × List RpcObs
  | [] => (st, [])
  | e :: es =>
    let r := rpcStep st e
    let rest := rpcRunFrom r.1 es
    (rest.1, r.2 ++ rest.2)

/-- Run the correlator from the initial state. -/
def rpcRun (es : List RpcEvent) : RpcState × List RpcObs :=
  rpcRunFrom rpcInit es

/-- The identifiers allocated along an observation list, in order. -/
def allocatedIds (obs : List RpcObs) : List Nat :=
  obs.filterMap (fun o => match o with | .allocated i => some i | _ => none)

/-! ## Turn scheduler machine

State machine for sendCodexPrompt and the module-level codexQueue promise
chain of src/server.js.  Each submission k chains two promises onto the
current value of the codexQueue variable: a then-promise whose handler
invokes runTurn for prompt k, and a catch-promise (the new value of the
variable) whose handler converts any failure into a fulfilled recovery
object and, as its first action, reassigns the codexQueue variable to a
fresh already-resolved promise.

Promise semantics captured: a handler chained on an already-fulfilled
promise runs during the current microtask drain, before the next external
event; a handler chained on a pending promise runs when that promise
settles.  In the regime where the subprocess is running and the target
directory's thread is cached, the path from the invocation of runTurn to
the write of its turn-start request contains no intervening external
wait, so the turn-start observation is emitted at invocation time.
External events (a turn finishing, a caller submitting) are the
nondeterministic inputs of the machine. -/

/-- The aggregated result of a turn, the resolution value of runTurn. -/
structure TurnResultV where
  stdout : String
  stderr : String
  events : List String
deriving DecidableEq, Repr

/-- A rejection value produced by runTurn: an Error with its message and
the optional events field attached by the turn-timeout path. -/
structure CodexErrorV where
  message : String
  events : Option (List String)
deriving DecidableEq, Repr

/-- Settlement of a caller-visible promise. -/
inductive PromiseOutcome
  | fulfilledWith (v : TurnResultV)
  | rejectedWith (e : CodexErrorV)
deriving DecidableEq, Repr

/-- The recovery object built by the catch handler of sendCodexPrompt:
empty output, the error message (the string form of the error when the
message is empty) as diagnostics, and the events attached to the error. -/
def recoveryValue (e : CodexErrorV) : TurnResultV :=
  { stdout := ""
    stderr := if e.message.isEmpty then "Error" else e.message
    events := e.events.getD [] }

/-- Settlement of the catch-promise of submission k, as a function of the
outcome of its runTurn invocation: a success passes through, and the catch
handler returns the recovery object, so the caller promise is fulfilled in
both cases. -/
def catchSettle : Except CodexErrorV TurnResultV → PromiseOutcome
  | .ok r => .fulfilledWith r
  | .error e => .fulfilledWith (recoveryValue e)

/-- A reference to a promise the codexQueue variable can hold: a fresh
already-resolved promise, or the catch-promise of submission k. -/
inductive PromiseRef
  | fresh
  | chainQ (k : Nat)
deriving DecidableEq, Repr

/-- Lifecycle of one submission's turn. -/
inductive TurnPhase
  | queued
  | running
  | settled
deriving DecidableEq, Repr

/-- Scheduler state: per submission its source promise (the codexQueue
value at submission time), its turn phase and whether its catch-promise
has settled, plus the current value of the codexQueue variable. -/
structure SchedState where
  source : List PromiseRef
  phase : List TurnPhase
  qFulfilled : List Bool
  queueVar : PromiseRef
deriving DecidableEq, Repr

instance : DecidableEq (Except CodexErrorV TurnResultV) := fun a b =>
  match a, b with
  | .ok x, .ok y =>
    if h : x = y then isTrue (h ▸ rfl) else isFalse (fun hh => h (Except.ok.inj hh))
  | .ok _, .error _ => isFalse (fun hh => Except.noConfusion hh)
  | .error _, .ok _ => isFalse (fun hh => Except.noConfusion hh)
  | .error x, .error y =>
    if h : x = y then isTrue (h ▸ rfl) else isFalse (fun hh => h (Except.error.inj hh))

/-- Scheduler events: a caller submits the next prompt, or the running
turn k finishes with the given runTurn outcome. -/
inductive SchedEvent
  | submit
  | finish (k : Nat) (outcome : Except CodexErrorV TurnResultV)
deriving DecidableEq, Repr

/-- Scheduler observations: the turn-start request of submission k is
written to the subprocess, or the caller promise of submission k settles. -/
inductive SchedObs
  | turnStart (k : Nat)
  | callerSettled (k : Nat) (o : PromiseOutcome)
deriving DecidableEq, Repr

/-- Whether the promise a reference denotes is fulfilled in a state. -/
def srcFulfilled (st : SchedState) : PromiseRef → Bool
  | .fresh => true
  | .chainQ j => st.qFulfilled.getD j false

/-- Initial scheduler state: codexQueue holds an already-resolved promise
and nothing has been submitted. -/
def schedInit : SchedState := ⟨[], [], [], .fresh⟩

/-- One scheduler step.  On submit, the new submission records the current
codexQueue value as its source and the variable is reassigned to the new
catch-promise; when the source is already fulfilled the then-handler runs
in the same drain and the turn starts at once, otherwise the turn is
queued.  On finish k, the then-promise of k settles: on failure the catch
handler first reassigns codexQueue to a fresh resolved promise; in both
cases the catch-promise fulfills (catchSettle) and every queued submission
whose source is that catch-promise has its then-handler run, starting its
turn. -/
def schedStep (st : SchedState) : SchedEvent → SchedState × List SchedObs
  | .submit =>
    let k := st.source.length
    let started := srcFulfilled st st.queueVar
    (⟨st.source ++ [st.queueVar],
      st.phase ++ [if started then .running else .queued],
      st.qFulfilled ++ [false],
      .chainQ k⟩,
     if started then [.turnStart k] else [])
  | .finish k outcome =>
    if st.phase.getD k .settled = .running then
      let qv := match outcome with
        | .ok _ => st.queueVar
        | .error _ => PromiseRef.fresh
      let phase1 := st.phase.set k .settled
      let toStart := (List.range st.source.length).filter
        (fun j => phase1.getD j .settled = .queued
          && st.source.getD j .fresh = .chainQ k)
      (⟨st.source,
        toStart.foldl (fun ph j => ph.set j .running) phase1,
        st.qFulfilled.set k true,
        qv⟩,
       .callerSettled k (catchSettle outcome) :: toStart.map SchedObs.turnStart)
    else (st, [])

/-- Run the scheduler from a given state, concatenating observations. -/
def schedRunFrom (st : SchedState) : List SchedEvent → SchedState × List SchedObs
  | [] => (st, [])
  | e :: es =>
    let r := schedStep st e
    let rest := schedRunFrom r.1 es
    (rest.1, r.2 ++ rest.2)

/-- Run the scheduler from the initial state. -/
def schedRun (es : List SchedEvent) : SchedState × List SchedObs :=
  schedRunFrom schedInit es

/-- Scan of an observation list that detects a turn-start emitted while an
earlier-started turn has not yet settled: true exactly when some
turn-start request is written before the previously started turn's caller
promise settled. -/
def overlappingStart (obs : List SchedObs) : Bool :=
  (obs.foldl
    (fun (acc : List Nat × Bool) o =>
      match o with
      | .turnStart k => (k :: acc.1, acc.2 || !acc.1.isEmpty)
      | .callerSettled k _ => (acc.1.erase k, acc.2))
    ([], false)).2

/-- Whether the caller promise of submission k settles by rejection
somewhere in an observation list. -/
def callerRejected (k : Nat) (obs : List SchedObs) : Bool :=
  obs.any (fun o => match o with
    | .callerSettled j (.rejectedWith _) => j = k
    | _ => false)

/-! ## Start coalescing machine

State machine for ensureStarted and start of src/server.js.  ensureStarted
returns immediately when this.proc is set and not killed; otherwise, when
this.starting holds an in-flight attempt the caller awaits that same
promise; otherwise the caller begins a new attempt (this.starting is
assigned, spawn is invoked synchronously inside start) and awaits it, with
the slot cleared in a finally once the attempt settles.  Inside start, the
child's asynchronous spawn event sets this.proc before the initialization
exchange begins, so from that point new callers take the immediate-return
fast path even though the attempt is still in flight; the child's error
event rejects the attempt with this.proc never set; completion of the
initialization-plus-login sequence resolves or rejects the attempt with
this.proc left set either way; a process exit triggers reset, dropping
this.proc. -/

/-- How one ensureStarted caller's promise settles. -/
inductive CallerResult
  | immediateOk
  | attemptOutcome (a : Nat) (ok : Bool)
deriving DecidableEq, Repr

/-- Events of the start-coalescing machine: a caller invokes
ensureStarted; the child process's spawn event fires; the child process's
error event fires (spawn failure); the initialization-plus-login sequence
of the in-flight attempt finishes; the subprocess exits. -/
inductive StartEvent
  | call
  | spawned
  | spawnError
  | attemptDone (ok : Bool)
  | procExit
deriving DecidableEq, Repr

/-- Observations of the start-coalescing machine: spawn is invoked for
attempt a, or caller c's ensureStarted promise settles. -/
inductive StartObs
  | spawnInvoked (a : Nat)
  | callerDone (c : Nat) (r : CallerResult)
deriving DecidableEq, Repr

/-- Start-coalescing state: whether this.proc is set (and not killed), the
attempt held by this.starting, counters naming attempts and callers, and
the callers awaiting each attempt. -/
structure StartState where
  procSet : Bool
  starting : Option Nat
  attemptCount : Nat
  callerCount : Nat
  waiters : List (Nat × Nat)
deriving DecidableEq, Repr

/-- Initial start-coalescing state. -/
def startInit : StartState := ⟨false, none, 0, 0, []⟩

/-- One step of the start-coalescing machine. -/
def startStep (st : StartState) : StartEvent → StartState × List StartObs
  | .call =>
    let c := st.callerCount
    if st.procSet then
      ({ st with callerCount := c + 1 }, [.callerDone c .immediateOk])
    else
      match st.starting with
      | some a =>
        ({ st with callerCount := c + 1, waiters := st.waiters ++ [(c, a)] }, [])
      | none =>
        let a := st.attemptCount
        ({ st with
            callerCount := c + 1
            attemptCount := a + 1
            starting := some a
            waiters := st.waiters ++ [(c, a)] },
         [.spawnInvoked a])
  | .spawned =>
    match st.starting with
    | some _ => if st.procSet then (st, []) else ({ st with procSet := true }, [])
    | none => (st, [])
  | .spawnError =>
    match st.starting with
    | some a =>
      if st.procSet then (st, [])
      else
        ({ st with
            starting := none
            waiters := st.waiters.filter (fun w => w.2 ≠ a) },
         (st.waiters.filter (fun w => w.2 = a)).map
           (fun w => StartObs.callerDone w.1 (.attemptOutcome a false)))
    | none => (st, [])
  | .attemptDone ok =>
    match st.starting with
    | some a =>
      if st.procSet then
        ({ st with
            starting := none
            waiters := st.waiters.filter (fun w => w.2 ≠ a) },
         (st.waiters.filter (fun w => w.2 = a)).map
           (fun w => StartObs.callerDone w.1 (.attemptOutcome a ok)))
      else (st, [])
    | none => (st, [])
  | .procExit =>
    ({ st with procSet := false }, [])

/-- Run the start-coalescing machine from a given state. -/
def startRunFrom (st : StartState) : List StartEvent → StartState × List StartObs
  | [] => (st, [])
  | e :: es =>
    let r := startStep st e
    let rest := startRunFrom r.1 es
    (rest.1, r.2 ++ rest.2)

/-- Run the start-coalescing machine from the initial state. -/
def startRun (es : List StartEvent) : StartState × List StartObs :=
  startRunFrom startInit es

/-! ## Theorems -/

/-- C2: seed-once.  For every thread identifier, the first buildTurnInput
call for that thread returns the seed block (system guidance plus the
optional reference document) as first item followed by the literal prompt
as last item, and marks the thread seeded; every subsequent call for the
same thread (the seeded set only ever grows until reset) returns only the
literal prompt. -/
theorem buildTurnInput_seed_once (sys ctx prompt tid : String)
    (seeded : List String) (h : tid ∉ seeded) :
    (buildTurnInput sys ctx seeded prompt tid).1 =
      [⟨"text", seedBlockText sys ctx⟩, ⟨"text", prompt⟩]
    ∧ tid ∈ (buildTurnInput sys ctx seeded prompt tid).2
    ∧ (∀ (seeded' : List String) (prompt' : String), tid ∈ seeded' →
        (buildTurnInput sys ctx seeded' prompt' tid).1 = [⟨"text", prompt'⟩]
        ∧ (buildTurnInput sys ctx seeded' prompt' tid).2 = seeded')
    ∧ (∀ (seeded' : List String) (prompt' tid' : String), tid ∈ seeded' →
        tid ∈ (buildTurnInput sys ctx seeded' prompt' tid').2) := by
  refine ⟨?_, ?_, ?_, ?_⟩
  · simp [buildTurnInput, h]
  · simp [buildTurnInput, h]
  · intro seeded' prompt' h'
    simp [buildTurnInput, h']
  · intro seeded' prompt' tid' h'
    by_cases h2 : tid' ∈ seeded'
    · simpa [buildTurnInput, h2] using h'
    · simp only [buildTurnInput, if_neg h2]
      exact List.mem_cons_of_mem _ h'

/-- C2 witness: the seed-once theorem evaluated at a concrete thread. -/
theorem buildTurnInput_seed_once_witness :
    (buildTurnInput "sys" "ctx" [] "hello" "th1").1 =
      [⟨"text", seedBlockText "sys" "ctx"⟩, ⟨"text", "hello"⟩]
    ∧ (buildTurnInput "sys" "ctx" ["th1"] "again" "th1").1 = [⟨"text", "again"⟩] :=
  ⟨(buildTurnInput_seed_once "sys" "ctx" "hello" "th1" [] (by decide)).1,
   ((buildTurnInput_seed_once "sys" "ctx" "hello" "th1" [] (by decide)).2.2.1
     ["th1"] "again" (by decide)).1⟩

/-- C4: crash reset.  Reset empties the pending table, the thread-binding
map and the seeded-thread set, nulls the active turn and login waiter, and
its effect list rejects every pending request's waiter, the active turn's
waiter when present and the login waiter when present, each with the
process-exited failure, and contains nothing else. -/
theorem reset_clears_and_rejects (st : BridgeState) :
    (reset st).1.pending = []
    ∧ (reset st).1.threadByCwd = []
    ∧ (reset st).1.seededThreads = []
    ∧ (reset st).1.currentTurn = none
    ∧ (reset st).1.loginWaiter = false
    ∧ (∀ e ∈ st.pending, ResetEffect.rejectPending e.1 exitMsg ∈ (reset st).2)
    ∧ (st.currentTurn.isSome → ResetEffect.rejectTurn exitMsg ∈ (reset st).2)
    ∧ (st.loginWaiter = true → ResetEffect.rejectLogin exitMsg ∈ (reset st).2)
    ∧ (∀ eff ∈ (reset st).2,
        (∃ id, eff = ResetEffect.rejectPending id exitMsg
          ∧ id ∈ st.pending.map Prod.fst)
        ∨ (eff = ResetEffect.rejectTurn exitMsg ∧ st.currentTurn.isSome = true)
        ∨ (eff = ResetEffect.rejectLogin exitMsg ∧ st.loginWaiter = true)) := by
  refine ⟨rfl, rfl, rfl, rfl, rfl, ?_, ?_, ?_, ?_⟩
  · intro e he
    simp only [reset, List.mem_append, List.mem_map]
    exact Or.inl (Or.inl ⟨e, he, rfl⟩)
  · intro hturn
    simp [reset, hturn]
  · intro hlogin
    simp [reset, hlogin]
  · intro eff heff
    simp only [reset, List.mem_append, List.mem_map] at heff
    rcases heff with (⟨e, he, rfl⟩ | hturn) | hlogin
    · exact Or.inl ⟨e.1, rfl, List.mem_map.mpr ⟨e, he, rfl⟩⟩
    · by_cases hc : st.currentTurn.isSome
      · simp only [if_pos hc, List.mem_singleton] at hturn
        exact Or.inr (Or.inl ⟨hturn, hc⟩)
      · simp [hc] at hturn
    · by_cases hl : st.loginWaiter
      · simp only [if_pos hl, List.mem_singleton] at hlogin
        exact Or.inr (Or.inr ⟨hlogin, hl⟩)
      · simp [hl] at hlogin

/-- C4 witness: the reset theorem evaluated at a concrete state holding
two pending requests, an active turn and a login waiter. -/
theorem reset_clears_and_rejects_witness :
    (reset ⟨true, 7, [(3, "turn/start"), (5, "account/read")], [("/w", "t1")],
        ["t1"], some ⟨some "t1", "out", "", []⟩, "", true⟩).1.pending = []
    ∧ ResetEffect.rejectPending 3 exitMsg ∈
        (reset ⟨true, 7, [(3, "turn/start"), (5, "account/read")], [("/w", "t1")],
          ["t1"], some ⟨some "t1", "out", "", []⟩, "", true⟩).2
    ∧ ResetEffect.rejectTurn exitMsg ∈
        (reset ⟨true, 7, [(3, "turn/start"), (5, "account/read")], [("/w", "t1")],
          ["t1"], some ⟨some "t1", "out", "", []⟩, "", true⟩).2
    ∧ ResetEffect.rejectLogin exitMsg ∈
        (reset ⟨true, 7, [(3, "turn/start"), (5, "account/read")], [("/w", "t1")],
          ["t1"], some ⟨some "t1", "out", "", []⟩, "", true⟩).2 := by
  refine ⟨(reset_clears_and_rejects _).1, ?_, ?_, ?_⟩
  · exact (reset_clears_and_rejects _).2.2.2.2.2.1 (3, "turn/start") (by decide)
  · exact (reset_clears_and_rejects _).2.2.2.2.2.2.1 (by decide)
  · exact (reset_clears_and_rejects _).2.2.2.2.2.2.2.1 (by decide)

/-- C5: thread stability.  For a directory with no truthy cache entry, the
first getThreadId call issues exactly one thread-start request and caches
the identifier returned by the subprocess; every later call for the same
directory returns that identical cached identifier and issues no request;
when the thread-start response carries no truthy thread identifier the call
fails and caches nothing. -/
theorem getThreadId_stable (ap sb cwd tidVal : String)
    (m : List (String × String))
    (hfresh : strTruthy (lookupThread m cwd) = false)
    (resp : ThreadStartResult)
    (hid : resp.thread.bind ThreadRef.id = some tidVal)
    (hne : tidVal.isEmpty = false) :
    (getThreadId ap sb m cwd (.ok resp)).2 = [.threadStart cwd ap sb]
    ∧ (getThreadId ap sb m cwd (.ok resp)).1 = .ok (tidVal, (cwd, tidVal) :: m)
    ∧ (∀ resp' : Except String ThreadStartResult,
        (getThreadId ap sb ((cwd, tidVal) :: m) cwd resp').1 =
          .ok (tidVal, (cwd, tidVal) :: m)
        ∧ (getThreadId ap sb ((cwd, tidVal) :: m) cwd resp').2 = [])
    ∧ (∀ resp'' : ThreadStartResult,
        strTruthy (resp''.thread.bind ThreadRef.id) = false →
        (getThreadId ap sb m cwd (.ok resp'')).1 =
          .error "Codex app-server did not return a thread id."
        ∧ (getThreadId ap sb m cwd (.ok resp'')).2 = [.threadStart cwd ap sb]) := by
  have htr : strTruthy (resp.thread.bind ThreadRef.id) = true := by
    rw [hid]; simp [strTruthy, hne]
  refine ⟨?_, ?_, ?_, ?_⟩
  · unfold getThreadId
    rw [if_neg (by rw [hfresh]; simp)]
    simp [hid, strTruthy, hne]
  · unfold getThreadId
    rw [if_neg (by rw [hfresh]; simp)]
    simp [hid, strTruthy, hne]
  · intro resp'
    have hcache : lookupThread ((cwd, tidVal) :: m) cwd = some tidVal := by
      simp [lookupThread, List.find?]
    constructor
    · simp [getThreadId, hcache, strTruthy, hne]
    · simp [getThreadId, hcache, strTruthy, hne]
  · intro resp'' hmiss
    constructor
    · simp [getThreadId, hfresh, hmiss]
    · simp [getThreadId, hfresh, hmiss]

/-- C5 witness: the thread-stability theorem evaluated at a concrete
directory and response. -/
theorem getThreadId_stable_witness :
    (getThreadId "never" "workspace-write" [] "/w/a"
        (.ok ⟨some ⟨some "th1"⟩⟩)).1 = .ok ("th1", [("/w/a", "th1")])
    ∧ (getThreadId "never" "workspace-write" [("/w/a", "th1")] "/w/a"
        (.error "ignored")).1 = .ok ("th1", [("/w/a", "th1")])
    ∧ (getThreadId "never" "workspace-write" [] "/w/a"
        (.ok ⟨some ⟨none⟩⟩)).1 =
          .error "Codex app-server did not return a thread id." := by
  refine ⟨?_, ?_, ?_⟩
  · exact (getThreadId_stable "never" "workspace-write" "/w/a" "th1" []
      (by decide) ⟨some ⟨some "th1"⟩⟩ (by decide) (by decide)).2.1
  · exact ((getThreadId_stable "never" "workspace-write" "/w/a" "th1" []
      (by decide) ⟨some ⟨some "th1"⟩⟩ (by decide) (by decide)).2.2.1
        (.error "ignored")).1
  · exact ((getThreadId_stable "never" "workspace-write" "/w/a" "th1" []
      (by decide) ⟨some ⟨some "th1"⟩⟩ (by decide) (by decide)).2.2.2
        ⟨some ⟨none⟩⟩ (by decide)).1

/-- C7: login flow.  ensureLoggedIn succeeds with no login-start request
when the account-status response says authentication is not required or an
account is present; with authentication required, no account and no truthy
credential it fails with the missing-credential error and no login-start
request; only with a truthy credential does it issue exactly one
login-start request and wait for the asynchronous login-completed
notification. -/
theorem ensureLoggedIn_cases (a : AuthInfo) (k : Option String) :
    (a.requiresOpenaiAuth = false → ensureLoggedIn a k = ([], .ok))
    ∧ (a.account = true → ensureLoggedIn a k = ([], .ok))
    ∧ (a.requiresOpenaiAuth = true → a.account = false → strTruthy k = false →
        ensureLoggedIn a k = ([], .missingCredential missingKeyMsg))
    ∧ (∀ s : String, a.requiresOpenaiAuth = true → a.account = false →
        k = some s → s.isEmpty = false →
        ensureLoggedIn a k = ([.loginStart s], .awaitLoginNotification)) := by
  refine ⟨?_, ?_, ?_, ?_⟩
  · intro h; simp [ensureLoggedIn, h]
  · intro h
    by_cases hr : a.requiresOpenaiAuth
    · simp [ensureLoggedIn, hr, h]
    · simp [ensureLoggedIn, hr]
  · intro hr ha hk; simp [ensureLoggedIn, hr, ha, hk]
  · intro s hr ha hk hs
    subst hk
    simp [ensureLoggedIn, hr, ha, strTruthy, hs]

/-- C7 witness: the login-flow theorem evaluated at concrete responses. -/
theorem ensureLoggedIn_cases_witness :
    ensureLoggedIn ⟨false, false⟩ none = ([], .ok)
    ∧ ensureLoggedIn ⟨true, true⟩ none = ([], .ok)
    ∧ ensureLoggedIn ⟨true, false⟩ none =
        ([], .missingCredential missingKeyMsg)
    ∧ ensureLoggedIn ⟨true, false⟩ (some "sk-test") =
        ([.loginStart "sk-test"], .awaitLoginNotification) :=
  ⟨(ensureLoggedIn_cases ⟨false, false⟩ none).1 rfl,
   (ensureLoggedIn_cases ⟨true, true⟩ none).2.1 rfl,
   (ensureLoggedIn_cases ⟨true, false⟩ none).2.2.1 rfl rfl (by decide),
   (ensureLoggedIn_cases ⟨true, false⟩ (some "sk-test")).2.2.2 "sk-test"
     rfl rfl rfl (by decide)⟩

/-- C3 counterexample: a notification whose truthy turn identifier differs
from the active turn's truthy recorded identifier does not leave the
active turn's state unchanged — its summary is appended to the turn's
event log before the identifier check runs. -/
theorem handleNotification_mismatch_appends_event :
    strTruthy (notifTurnId { Params.empty with
        turn_id := some "t2", item := some ⟨some "hello", none⟩ }) = true
    ∧ notifTurnId { Params.empty with
        turn_id := some "t2", item := some ⟨some "hello", none⟩ } ≠ some "t1"
    ∧ (handleNotification ⟨false, some ⟨some "t1", "", "", []⟩⟩
        "item/completed"
        { Params.empty with
          turn_id := some "t2", item := some ⟨some "hello", none⟩ }).1
      = ⟨false, some ⟨some "t1", "", "", ["item: hello"]⟩⟩
    ∧ (⟨false, some ⟨some "t1", "", "", ["item: hello"]⟩⟩ : NotifState)
      ≠ ⟨false, some ⟨some "t1", "", "", []⟩⟩ := by decide

/-- C3 amended: notification isolation, weakened to what the code does.
For every notification carrying a truthy turn identifier that differs from
the active turn's truthy recorded identifier (and that is not consumed by
the login waiter), handling leaves the accumulated output, diagnostics and
recorded identifier unchanged, produces no effects (in particular the turn
is not completed), but appends the notification's summary, when one is
produced, to the turn's event log. -/
theorem handleNotification_mismatch_frame (lw : Bool) (turn : CurrentTurn)
    (method : String) (p : Params)
    (hlogin : ¬(method = "account/login/completed" ∧ lw = true))
    (h1 : strTruthy (notifTurnId p) = true)
    (h2 : strTruthy turn.turnId = true)
    (h3 : notifTurnId p ≠ turn.turnId) :
    handleNotification ⟨lw, some turn⟩ method p =
      (⟨lw, some { turn with events := turn.events ++
          (summarizeCodexNotification method p).toList }⟩, []) := by
  unfold handleNotification
  rw [if_neg (by simpa using hlogin)]
  cases hs : summarizeCodexNotification method p with
  | none => simp [h1, h2, h3]
  | some s => simp [h1, h2, h3]

/-- C3 amended witness: the frame theorem evaluated at a concrete
mismatching notification. -/
theorem handleNotification_mismatch_frame_witness :
    handleNotification ⟨false, some ⟨some "t1", "out", "", ["e0"]⟩⟩
        "turn/completed" { Params.empty with turnId := some "t9" } =
      (⟨false, some ⟨some "t1", "out", "", ["e0", "turn/completed"]⟩⟩, []) := by
  have h := handleNotification_mismatch_frame false ⟨some "t1", "out", "", ["e0"]⟩
    "turn/completed" { Params.empty with turnId := some "t9" }
    (by decide) (by decide) (by decide) (by decide)
  simpa using h

/-- C1 evidence: the turn queue is not strictly serialized.  In the
concrete trace below, prompt 0 starts, prompt 1 queues behind it, prompt 0
fails, and its catch handler reassigns the codexQueue variable to a fresh
resolved promise while prompt 1 (still chained on the old head) starts
running; prompt 2, submitted afterwards, chains on the fresh resolved
promise and its turn-start request is written while prompt 1 is still
unresolved.  In the failure-free variant of the same trace no overlapping
turn-start occurs. -/
theorem codexQueue_race_code_bug :
    (schedRun [.submit, .submit,
        .finish 0 (.error ⟨"Codex turn timed out.", some []⟩), .submit]).2 =
      [.turnStart 0,
       .callerSettled 0 (.fulfilledWith ⟨"", "Codex turn timed out.", []⟩),
       .turnStart 1, .turnStart 2]
    ∧ overlappingStart (schedRun [.submit, .submit,
        .finish 0 (.error ⟨"Codex turn timed out.", some []⟩), .submit]).2 = true
    ∧ overlappingStart (schedRun [.submit, .submit,
        .finish 0 (.ok ⟨"done", "", []⟩), .submit]).2 = false := by decide

/-- C9 counterexample: when the single submitted turn fails, the caller's
sendCodexPrompt promise does not reject — it fulfills with the recovery
object (empty output, the error message as diagnostics). -/
theorem sendCodexPrompt_fulfills_counterexample :
    (schedRun [.submit,
        .finish 0 (.error ⟨"Codex turn timed out.", some []⟩)]).2 =
      [.turnStart 0,
       .callerSettled 0 (.fulfilledWith ⟨"", "Codex turn timed out.", []⟩)]
    ∧ callerRejected 0 (schedRun [.submit,
        .finish 0 (.error ⟨"Codex turn timed out.", some []⟩)]).2 = false := by
  decide

/-- Every caller settlement emitted by one scheduler step is a fulfillment:
the catch handler of sendCodexPrompt returns its recovery object instead of
rethrowing, so the surviving promise fulfills on both outcomes. -/
theorem schedStep_caller_fulfilled (st : SchedState) (e : SchedEvent) (k : Nat)
    (o : PromiseOutcome) (h : SchedObs.callerSettled k o ∈ (schedStep st e).2) :
    ∃ v, o = PromiseOutcome.fulfilledWith v := by
  cases e with
  | submit =>
    cases hst : srcFulfilled st st.queueVar <;> simp [schedStep, hst] at h
  | finish j outcome =>
    simp only [schedStep] at h
    split at h
    · simp only [List.mem_cons, List.mem_map] at h
      rcases h with h | ⟨b, _, hb⟩
      · have hko := (SchedObs.callerSettled.inj h).2
        cases outcome with
        | ok r => exact ⟨r, hko⟩
        | error e2 => exact ⟨recoveryValue e2, hko⟩
      · exact SchedObs.noConfusion hb
    · simp at h

/-- Every caller settlement along a scheduler run is a fulfillment. -/
theorem schedRunFrom_caller_fulfilled (es : List SchedEvent) (st : SchedState)
    (k : Nat) (o : PromiseOutcome)
    (h : SchedObs.callerSettled k o ∈ (schedRunFrom st es).2) :
    ∃ v, o = PromiseOutcome.fulfilledWith v := by
  induction es generalizing st with
  | nil => simp [schedRunFrom] at h
  | cons e es ih =>
    simp only [schedRunFrom, List.mem_append] at h
    rcases h with h | h
    · exact schedStep_caller_fulfilled st e k o h
    · exact ih _ h

/-- C9 amended: sendCodexPrompt never rejects.  Every settlement of a
caller promise observed along any scheduler run is a fulfillment, and when
a running turn finishes with an error the caller promise settles (first
observation of the step) fulfilled with the recovery object: empty output,
the error message as diagnostics and the events attached to the error.
The typed rejection exists only at the inner runTurn boundary. -/
theorem sendCodexPrompt_never_rejects (es : List SchedEvent) (k : Nat)
    (o : PromiseOutcome)
    (h : SchedObs.callerSettled k o ∈ (schedRun es).2) :
    (∃ v, o = PromiseOutcome.fulfilledWith v)
    ∧ ∀ (st : SchedState) (e : CodexErrorV),
        st.phase.getD k TurnPhase.settled = TurnPhase.running →
        (schedStep st (.finish k (.error e))).2.head? =
          some (.callerSettled k (.fulfilledWith (recoveryValue e))) := by
  constructor
  · exact schedRunFrom_caller_fulfilled es schedInit k o h
  · intro st e hph
    simp only [schedStep]
    rw [if_pos hph]
    rfl

/-- C9 amended witness: the never-rejects theorem applied to the concrete
single-failing-turn trace. -/
theorem sendCodexPrompt_never_rejects_witness :
    ∃ v, (PromiseOutcome.fulfilledWith ⟨"", "Codex turn timed out.", []⟩ :
      PromiseOutcome) = PromiseOutcome.fulfilledWith v :=
  (sendCodexPrompt_never_rejects
    [.submit, .finish 0 (.error ⟨"Codex turn timed out.", some []⟩)] 0
    (.fulfilledWith ⟨"", "Codex turn timed out.", []⟩) (by decide)).1

/-- The attempt identifiers whose spawn was invoked along an observation
list, in order. -/
def spawnIds (obs : List StartObs) : List Nat :=
  obs.filterMap (fun o => match o with | .spawnInvoked a => some a | _ => none)

/-- Along any run of the start-coalescing machine, the spawned attempt
identifiers are consecutive starting from the initial attempt counter:
every attempt is spawned exactly once and no identifier repeats. -/
theorem startRunFrom_spawnIds (es : List StartEvent) (st : StartState) :
    ∃ n, (startRunFrom st es).1.attemptCount = st.attemptCount + n
      ∧ spawnIds (startRunFrom st es).2 = List.range' st.attemptCount n := by
  induction es generalizing st with
  | nil => exact ⟨0, by simp [startRunFrom], by simp [startRunFrom, spawnIds, List.range']⟩
  | cons e es ih =>
    have key : ((startStep st e).1.attemptCount = st.attemptCount
          ∧ spawnIds (startStep st e).2 = [])
        ∨ ((startStep st e).1.attemptCount = st.attemptCount + 1
          ∧ spawnIds (startStep st e).2 = [st.attemptCount]) := by
      cases e with
      | call =>
        by_cases hp : st.procSet = true
        · exact Or.inl (by constructor <;> simp [startStep, hp, spawnIds])
        · cases hs : st.starting with
          | some a => exact Or.inl (by constructor <;> simp [startStep, hp, hs, spawnIds])
          | none => exact Or.inr (by constructor <;> simp [startStep, hp, hs, spawnIds])
      | spawned =>
        cases hs : st.starting with
        | some a =>
          by_cases hp : st.procSet = true
          · exact Or.inl (by constructor <;> simp [startStep, hs, hp, spawnIds])
          · exact Or.inl (by constructor <;> simp [startStep, hs, hp, spawnIds])
        | none => exact Or.inl (by constructor <;> simp [startStep, hs, spawnIds])
      | spawnError =>
        cases hs : st.starting with
        | some a =>
          by_cases hp : st.procSet = true
          · exact Or.inl (by constructor <;> simp [startStep, hs, hp, spawnIds])
          · exact Or.inl (by constructor <;> simp [startStep, hs, hp, spawnIds])
        | none => exact Or.inl (by constructor <;> simp [startStep, hs, spawnIds])
      | attemptDone ok =>
        cases hs : st.starting with
        | some a =>
          by_cases hp : st.procSet = true
          · exact Or.inl (by constructor <;> simp [startStep, hs, hp, spawnIds])
          · exact Or.inl (by constructor <;> simp [startStep, hs, hp, spawnIds])
        | none => exact Or.inl (by constructor <;> simp [startStep, hs, spawnIds])
      | procExit => exact Or.inl (by constructor <;> simp [startStep, spawnIds])
    obtain ⟨n, hn, hsp⟩ := ih (startStep st e).1
    rcases key with ⟨h1, h2⟩ | ⟨h1, h2⟩
    · refine ⟨n, ?_, ?_⟩
      · simp only [startRunFrom]
        rw [hn, h1]
      · simp only [startRunFrom, spawnIds, List.filterMap_append]
        rw [show (List.filterMap _ (startStep st e).2 : List Nat) =
          spawnIds (startStep st e).2 from rfl, h2]
        rw [show (List.filterMap _ (startRunFrom (startStep st e).1 es).2 : List Nat) =
          spawnIds (startRunFrom (startStep st e).1 es).2 from rfl, hsp, h1]
        simp
    · refine ⟨n + 1, ?_, ?_⟩
      · simp only [startRunFrom]
        rw [hn, h1]
        omega
      · simp only [startRunFrom, spawnIds, List.filterMap_append]
        rw [show (List.filterMap _ (startStep st e).2 : List Nat) =
          spawnIds (startStep st e).2 from rfl, h2]
        rw [show (List.filterMap _ (startRunFrom (startStep st e).1 es).2 : List Nat) =
          spawnIds (startRunFrom (startStep st e).1 es).2 from rfl, hsp, h1]
        simp [List.range']

/-- C6 counterexample: a caller arriving while a start attempt is underway
does not always await that attempt.  After the first caller's attempt has
passed its spawn event but not yet completed initialization and login, the
attempt slot is still occupied, yet a second caller returns immediately
with a success-shaped outcome; the attempt then fails and only the first
caller observes the failure. -/
theorem ensureStarted_fastpath_counterexample :
    (startRunFrom startInit [.call, .spawned]).1.starting = some 0
    ∧ (startRun [.call, .spawned, .call, .attemptDone false]).2 =
        [.spawnInvoked 0, .callerDone 1 .immediateOk,
         .callerDone 0 (.attemptOutcome 0 false)] := by decide

/-- C6 amended: start coalescing as implemented.  At most one spawn is in
flight at a time — over any run the spawned attempt identifiers are
exactly consecutive, each attempt spawning once, and a call never invokes
spawn while the attempt slot is occupied.  A caller arriving while an
attempt is underway and before the subprocess handle is set joins that
same attempt, and settlement of the attempt (failure at spawn or
completion of initialization and login) delivers its single outcome to
every joined caller and clears the slot; but a caller arriving after the
handle is set returns immediately without joining the attempt.  With the
slot clear and no live handle, the next call retries with a fresh spawn. -/
theorem ensureStarted_coalescing_amended (st : StartState) (a : Nat)
    (ok : Bool) (es : List StartEvent) :
    (spawnIds (startRun es).2 = List.range (startRun es).1.attemptCount)
    ∧ (st.starting = some a → ∀ b, StartObs.spawnInvoked b ∉ (startStep st .call).2)
    ∧ (st.starting = some a → st.procSet = false →
        (startStep st .call).1.waiters = st.waiters ++ [(st.callerCount, a)]
        ∧ (startStep st .call).2 = [])
    ∧ (st.procSet = true →
        (startStep st .call).2 = [.callerDone st.callerCount .immediateOk]
        ∧ (startStep st .call).1.waiters = st.waiters)
    ∧ (st.starting = some a → st.procSet = true →
        (startStep st (.attemptDone ok)).2 =
          (st.waiters.filter (fun w => w.2 = a)).map
            (fun w => StartObs.callerDone w.1 (.attemptOutcome a ok))
        ∧ (startStep st (.attemptDone ok)).1.starting = none)
    ∧ (st.starting = some a → st.procSet = false →
        (startStep st .spawnError).2 =
          (st.waiters.filter (fun w => w.2 = a)).map
            (fun w => StartObs.callerDone w.1 (.attemptOutcome a false))
        ∧ (startStep st .spawnError).1.starting = none)
    ∧ (st.starting = none → st.procSet = false →
        (startStep st .call).2 = [.spawnInvoked st.attemptCount]
        ∧ (startStep st .call).1.starting = some st.attemptCount) := by
  refine ⟨?_, ?_, ?_, ?_, ?_, ?_, ?_⟩
  · obtain ⟨n, hn, hsp⟩ := startRunFrom_spawnIds es startInit
    simp only [startRun]
    rw [hsp, hn]
    simp [startInit, List.range_eq_range']
  · intro hs b
    by_cases hp : st.procSet = true
    · simp [startStep, hp]
    · simp [startStep, hp, hs]
  · intro hs hp
    constructor <;> simp [startStep, hp, hs]
  · intro hp
    constructor <;> simp [startStep, hp]
  · intro hs hp
    constructor <;> simp [startStep, hp, hs]
  · intro hs hp
    constructor <;> simp [startStep, hp, hs]
  · intro hs hp
    constructor <;> simp [startStep, hp, hs]

/-- C6 amended witness: the coalescing theorem applied at concrete states,
showing a pre-spawn caller joining the in-flight attempt and the failed
attempt delivering its outcome to the joined callers. -/
theorem ensureStarted_coalescing_amended_witness :
    (startStep ⟨false, some 0, 1, 1, [(0, 0)]⟩ .call).1.waiters = [(0, 0), (1, 0)]
    ∧ (startStep ⟨true, some 0, 1, 2, [(0, 0), (1, 0)]⟩ (.attemptDone false)).2 =
        [.callerDone 0 (.attemptOutcome 0 false),
         .callerDone 1 (.attemptOutcome 0 false)] := by
  constructor
  · have h := (ensureStarted_coalescing_amended ⟨false, some 0, 1, 1, [(0, 0)]⟩
      0 false []).2.2.1 rfl rfl
    rw [h.1]
    decide
  · have h := (ensureStarted_coalescing_amended ⟨true, some 0, 1, 2, [(0, 0), (1, 0)]⟩
      0 false []).2.2.2.2.1 rfl rfl
    rw [h.1]
    decide

/-- Number of send events in a correlator event list. -/
def sendCount : List RpcEvent → Nat
  | [] => 0
  | .send :: es => sendCount es + 1
  | _ :: es => sendCount es

/-- Strict chains: consecutive identifier blocks are strictly increasing. -/
theorem chain_lt_range' (a n : Nat) :
    List.Chain' (· < ·) (List.range' a n) := by
  induction n generalizing a with
  | zero => simp
  | succ n ih =>
    rw [List.range'_succ]
    cases n with
    | zero => simp
    | succ m =>
      rw [List.range'_succ]
      exact List.Chain'.cons (by omega) (by rw [← List.range'_succ]; exact ih (a + 1))

/-- A correlator run splits across an append of event lists. -/
theorem rpcRunFrom_append (es1 es2 : List RpcEvent) (st : RpcState) :
    rpcRunFrom st (es1 ++ es2) =
      ((rpcRunFrom (rpcRunFrom st es1).1 es2).1,
        (rpcRunFrom st es1).2 ++ (rpcRunFrom (rpcRunFrom st es1).1 es2).2) := by
  induction es1 generalizing st with
  | nil => simp [rpcRunFrom]
  | cons e es ih =>
    simp only [List.cons_append, rpcRunFrom, List.append_eq]
    rw [ih]
    simp [List.append_assoc]

/-- Along any correlator run the counter advances by the number of sends
and the allocated identifiers form the consecutive block starting at the
initial counter value — every allocation is strictly greater than all
earlier ones. -/
theorem rpcRunFrom_allocated (es : List RpcEvent) (st : RpcState) :
    (rpcRunFrom st es).1.nextId = st.nextId + sendCount es
    ∧ allocatedIds (rpcRunFrom st es).2 =
        List.range' st.nextId (sendCount es) := by
  induction es generalizing st with
  | nil =>
    exact ⟨by simp [rpcRunFrom, sendCount],
      by simp [rpcRunFrom, sendCount, allocatedIds]⟩
  | cons e es ih =>
    cases e with
    | send =>
      obtain ⟨h1, h2⟩ := ih ⟨st.nextId + 1, st.pendingIds ++ [st.nextId]⟩
      constructor
      · simp only [rpcRunFrom, rpcStep]
        rw [h1]
        simp only [sendCount]
        omega
      · simp only [rpcRunFrom, rpcStep, allocatedIds, List.filterMap_append]
        rw [show (List.filterMap _
            (rpcRunFrom (⟨st.nextId + 1, st.pendingIds ++ [st.nextId]⟩ : RpcState)
              es).2 : List Nat) =
          allocatedIds (rpcRunFrom
            (⟨st.nextId + 1, st.pendingIds ++ [st.nextId]⟩ : RpcState) es).2
          from rfl, h2]
        simp only [sendCount, List.range'_succ]
        simp [allocatedIds]
    | recv id0 c =>
      by_cases hm : id0 ∈ st.pendingIds
      · obtain ⟨h1, h2⟩ := ih ⟨st.nextId, st.pendingIds.erase id0⟩
        constructor
        · simp only [rpcRunFrom, rpcStep, if_pos hm]
          rw [h1]
          simp [sendCount]
        · simp only [rpcRunFrom, rpcStep, if_pos hm, allocatedIds,
            List.filterMap_append]
          rw [show (List.filterMap _
              (rpcRunFrom (⟨st.nextId, st.pendingIds.erase id0⟩ : RpcState)
                es).2 : List Nat) =
            allocatedIds (rpcRunFrom
              (⟨st.nextId, st.pendingIds.erase id0⟩ : RpcState) es).2
            from rfl, h2]
          simp [sendCount, allocatedIds]
      · obtain ⟨h1, h2⟩ := ih st
        constructor
        · simp only [rpcRunFrom, rpcStep, if_neg hm]
          rw [h1]
          simp [sendCount]
        · simp only [rpcRunFrom, rpcStep, if_neg hm, allocatedIds,
            List.filterMap_append]
          rw [show (List.filterMap _ (rpcRunFrom st es).2 : List Nat) =
            allocatedIds (rpcRunFrom st es).2 from rfl, h2]
          simp [sendCount, allocatedIds]
    | timeoutFire id0 =>
      by_cases hm : id0 ∈ st.pendingIds
      · obtain ⟨h1, h2⟩ := ih ⟨st.nextId, st.pendingIds.erase id0⟩
        constructor
        · simp only [rpcRunFrom, rpcStep, if_pos hm]
          rw [h1]
          simp [sendCount]
        · simp only [rpcRunFrom, rpcStep, if_pos hm, allocatedIds,
            List.filterMap_append]
          rw [show (List.filterMap _
              (rpcRunFrom (⟨st.nextId, st.pendingIds.erase id0⟩ : RpcState)
                es).2 : List Nat) =
            allocatedIds (rpcRunFrom
              (⟨st.nextId, st.pendingIds.erase id0⟩ : RpcState) es).2
            from rfl, h2]
          simp [sendCount, allocatedIds]
      · obtain ⟨h1, h2⟩ := ih st
        constructor
        · simp only [rpcRunFrom, rpcStep, if_neg hm]
          rw [h1]
          simp [sendCount]
        · simp only [rpcRunFrom, rpcStep, if_neg hm, allocatedIds,
            List.filterMap_append]
          rw [show (List.filterMap _ (rpcRunFrom st es).2 : List Nat) =
            allocatedIds (rpcRunFrom st es).2 from rfl, h2]
          simp [sendCount, allocatedIds]
    | procExit =>
      obtain ⟨h1, h2⟩ := ih ⟨st.nextId, []⟩
      constructor
      · simp only [rpcRunFrom, rpcStep]
        rw [h1]
        simp [sendCount]
      · simp only [rpcRunFrom, rpcStep, allocatedIds, List.filterMap_append]
        rw [show (List.filterMap _
            (rpcRunFrom (⟨st.nextId, []⟩ : RpcState) es).2 : List Nat) =
          allocatedIds (rpcRunFrom (⟨st.nextId, []⟩ : RpcState) es).2
          from rfl, h2]
        simp [sendCount, allocatedIds, List.filterMap_map]

/-- Correlator invariant: from a state whose pending identifiers are below
the counter and duplicate-free, any run keeps them below the counter and
duplicate-free, and every reached pending identifier is either inherited
from the start state or was allocated at or above the starting counter. -/
theorem rpcRunFrom_inv (es : List RpcEvent) (st : RpcState)
    (hlt : ∀ id ∈ st.pendingIds, id < st.nextId)
    (hnd : st.pendingIds.Nodup) :
    (∀ id ∈ (rpcRunFrom st es).1.pendingIds, id < (rpcRunFrom st es).1.nextId)
    ∧ (rpcRunFrom st es).1.pendingIds.Nodup
    ∧ (∀ id ∈ (rpcRunFrom st es).1.pendingIds,
        id ∈ st.pendingIds ∨ st.nextId ≤ id) := by
  induction es generalizing st with
  | nil =>
    refine ⟨?_, ?_, ?_⟩ <;> simp only [rpcRunFrom]
    · exact hlt
    · exact hnd
    · exact fun id h => Or.inl h
  | cons e es ih =>
    cases e with
    | send =>
      have hlt' : ∀ id ∈ st.pendingIds ++ [st.nextId], id < st.nextId + 1 := by
        intro id hm
        rcases List.mem_append.mp hm with hm | hm
        · exact Nat.lt_succ_of_lt (hlt id hm)
        · rw [List.mem_singleton] at hm
          omega
      have hnd' : (st.pendingIds ++ [st.nextId]).Nodup := by
        rw [List.nodup_append]
        refine ⟨hnd, List.nodup_singleton _, ?_⟩
        intro id hm hm2
        rw [List.mem_singleton] at hm2
        subst hm2
        exact absurd (hlt _ hm) (lt_irrefl _)
      obtain ⟨h1, h2, h3⟩ := ih ⟨st.nextId + 1, st.pendingIds ++ [st.nextId]⟩ hlt' hnd'
      refine ⟨?_, ?_, ?_⟩ <;> simp only [rpcRunFrom, rpcStep]
      · exact h1
      · exact h2
      · intro id hm
        rcases h3 id hm with hm2 | hm2
        · rcases List.mem_append.mp hm2 with hm3 | hm3
          · exact Or.inl hm3
          · rw [List.mem_singleton] at hm3
            exact Or.inr (le_of_eq hm3.symm)
        · exact Or.inr (Nat.le_of_succ_le hm2)
    | recv id0 c =>
      by_cases hm : id0 ∈ st.pendingIds
      · have hlt' : ∀ id ∈ st.pendingIds.erase id0, id < st.nextId :=
          fun id h => hlt id (List.mem_of_mem_erase h)
        obtain ⟨h1, h2, h3⟩ := ih ⟨st.nextId, st.pendingIds.erase id0⟩ hlt' (hnd.erase _)
        refine ⟨?_, ?_, ?_⟩ <;> simp only [rpcRunFrom, rpcStep, if_pos hm]
        · exact h1
        · exact h2
        · intro id hmem
          rcases h3 id hmem with hm2 | hm2
          · exact Or.inl (List.mem_of_mem_erase hm2)
          · exact Or.inr hm2
      · obtain ⟨h1, h2, h3⟩ := ih st hlt hnd
        refine ⟨?_, ?_, ?_⟩ <;> simp only [rpcRunFrom, rpcStep, if_neg hm]
        · exact h1
        · exact h2
        · exact h3
    | timeoutFire id0 =>
      by_cases hm : id0 ∈ st.pendingIds
      · have hlt' : ∀ id ∈ st.pendingIds.erase id0, id < st.nextId :=
          fun id h => hlt id (List.mem_of_mem_erase h)
        obtain ⟨h1, h2, h3⟩ := ih ⟨st.nextId, st.pendingIds.erase id0⟩ hlt' (hnd.erase _)
        refine ⟨?_, ?_, ?_⟩ <;> simp only [rpcRunFrom, rpcStep, if_pos hm]
        · exact h1
        · exact h2
        · intro id hmem
          rcases h3 id hmem with hm2 | hm2
          · exact Or.inl (List.mem_of_mem_erase hm2)
          · exact Or.inr hm2
      · obtain ⟨h1, h2, h3⟩ := ih st hlt hnd
        refine ⟨?_, ?_, ?_⟩ <;> simp only [rpcRunFrom, rpcStep, if_neg hm]
        · exact h1
        · exact h2
        · exact h3
    | procExit =>
      obtain ⟨h1, h2, h3⟩ := ih ⟨st.nextId, []⟩ (by simp) (by simp)
      refine ⟨?_, ?_, ?_⟩ <;> simp only [rpcRunFrom, rpcStep]
      · exact h1
      · exact h2
      · intro id hmem
        rcases h3 id hmem with hm2 | hm2
        · exact absurd hm2 (List.not_mem_nil id)
        · exact Or.inr hm2

/-- C8: request correlation.  Along any correlator run the allocated
identifiers are strictly increasing, so identifiers are unique among
currently-pending requests; a pending entry is removed by a correlator
event (send, response line, timeout — the subprocess-exit reset is the
supervisor's path, treated in the crash-reset claim) exactly when a
response carrying its identifier arrives or its own timeout fires; the
response settles the waiter rejecting exactly when the message carries an
error payload, the timeout settles it rejecting, and in both cases the
entry's removal is observed before the waiter's settlement. -/
theorem sendRpc_correlation (es : List RpcEvent) (id : Nat) (b : Bool)
    (e : RpcEvent) (hcorr : e ≠ RpcEvent.procExit)
    (hid : id ∈ (rpcRun es).1.pendingIds) :
    List.Chain' (· < ·) (allocatedIds (rpcRun es).2)
    ∧ (rpcRun es).1.pendingIds.Nodup
    ∧ ((id ∉ (rpcStep (rpcRun es).1 e).1.pendingIds) ↔
        ((∃ c, e = RpcEvent.recv id c) ∨ e = RpcEvent.timeoutFire id))
    ∧ (rpcStep (rpcRun es).1 (.recv id b)).2 = [.removed id, .settled id b]
    ∧ (rpcStep (rpcRun es).1 (.timeoutFire id)).2 =
        [.removed id, .settled id true] := by
  have hnd : (rpcRun es).1.pendingIds.Nodup :=
    (rpcRunFrom_inv es rpcInit (by simp [rpcInit]) (by simp [rpcInit])).2.1
  refine ⟨?_, hnd, ⟨?_, ?_⟩, ?_, ?_⟩
  · rw [rpcRun, (rpcRunFrom_allocated es rpcInit).2]
    exact chain_lt_range' _ _
  · intro hrem
    cases e with
    | send =>
      exact absurd (by simp only [rpcStep]; exact List.mem_append_left _ hid) hrem
    | recv j c =>
      by_cases hj : j ∈ (rpcRun es).1.pendingIds
      · by_cases hij : id = j
        · exact Or.inl ⟨c, by rw [hij]⟩
        · refine absurd ?_ hrem
          simp only [rpcStep, if_pos hj]
          exact hnd.mem_erase_iff.mpr ⟨hij, hid⟩
      · exact absurd (by simp only [rpcStep, if_neg hj]; exact hid) hrem
    | timeoutFire j =>
      by_cases hj : j ∈ (rpcRun es).1.pendingIds
      · by_cases hij : id = j
        · exact Or.inr (by rw [hij])
        · refine absurd ?_ hrem
          simp only [rpcStep, if_pos hj]
          exact hnd.mem_erase_iff.mpr ⟨hij, hid⟩
      · exact absurd (by simp only [rpcStep, if_neg hj]; exact hid) hrem
    | procExit => exact absurd rfl hcorr
  · intro hcase
    rcases hcase with ⟨c, rfl⟩ | rfl
    · simp only [rpcStep, if_pos hid]
      intro hmem
      exact (hnd.mem_erase_iff.mp hmem).1 rfl
    · simp only [rpcStep, if_pos hid]
      intro hmem
      exact (hnd.mem_erase_iff.mp hmem).1 rfl
  · simp [rpcStep, hid]
  · simp [rpcStep, hid]

/-- C8 witness: the correlation theorem applied to a run of two sends
followed by a response for the first identifier. -/
theorem sendRpc_correlation_witness :
    List.Chain' (· < ·) (allocatedIds (rpcRun [.send, .send]).2)
    ∧ (rpcStep (rpcRun [.send, .send]).1 (.recv 1 true)).2 =
        [.removed 1, .settled 1 true] := by
  have h := sendRpc_correlation [.send, .send] 1 true (.recv 1 true)
    (by decide) (by decide)
  exact ⟨h.1, h.2.2.2.1⟩

/-- C10: the subprocess-exit reset leaves the identifier counter
untouched, identifiers stay strictly increasing across the reset, and an
identifier allocated before the reset is never pending afterwards — a
response line carrying it is a complete no-op for the correlator, so a
response from a new subprocess instance can never match a pending entry
created for a previous instance. -/
theorem nextId_survives_reset (st : RpcState) (es1 es2 : List RpcEvent)
    (id : Nat) (b : Bool)
    (halloc : RpcObs.allocated id ∈ (rpcRun es1).2) :
    (rpcStep st .procExit).1.nextId = st.nextId
    ∧ List.Chain' (· < ·)
        (allocatedIds (rpcRun (es1 ++ .procExit :: es2)).2)
    ∧ id ∉ (rpcRun (es1 ++ .procExit :: es2)).1.pendingIds
    ∧ rpcStep (rpcRun (es1 ++ .procExit :: es2)).1 (.recv id b) =
        ((rpcRun (es1 ++ .procExit :: es2)).1, []) := by
  have hmem : id ∈ allocatedIds (rpcRun es1).2 :=
    List.mem_filterMap.mpr ⟨RpcObs.allocated id, halloc, rfl⟩
  rw [rpcRun, (rpcRunFrom_allocated es1 rpcInit).2] at hmem
  have hidlt : id < 1 + sendCount es1 := by
    have := (List.mem_range'_1.mp hmem).2
    simpa [rpcInit] using this
  have hsplit : (rpcRun (es1 ++ .procExit :: es2)).1 =
      (rpcRunFrom (⟨(rpcRun es1).1.nextId, []⟩ : RpcState) es2).1 := by
    rw [rpcRun, rpcRunFrom_append]
    rfl
  have hnot : id ∉ (rpcRun (es1 ++ .procExit :: es2)).1.pendingIds := by
    rw [hsplit]
    intro hidmem
    rcases (rpcRunFrom_inv es2 ⟨(rpcRun es1).1.nextId, []⟩
        (by simp) (by simp)).2.2 id hidmem with h0 | h0
    · exact List.not_mem_nil id h0
    · have hnx : (rpcRun es1).1.nextId = 1 + sendCount es1 := by
        rw [rpcRun, (rpcRunFrom_allocated es1 rpcInit).1]
        rfl
      rw [hnx] at h0
      omega
  refine ⟨rfl, ?_, hnot, ?_⟩
  · rw [rpcRun, (rpcRunFrom_allocated (es1 ++ .procExit :: es2) rpcInit).2]
    exact chain_lt_range' _ _
  · simp [rpcStep, hnot]

/-- C10 witness: the reset-survival theorem applied to a run that sends
twice, crashes, and then receives a stale response for identifier 1. -/
theorem nextId_survives_reset_witness :
    (rpcStep (⟨5, [2]⟩ : RpcState) .procExit).1.nextId = 5
    ∧ 1 ∉ (rpcRun ([.send, .send] ++ .procExit :: [.send])).1.pendingIds
    ∧ rpcStep (rpcRun ([.send, .send] ++ .procExit :: [.send])).1 (.recv 1 false) =
        ((rpcRun ([.send, .send] ++ .procExit :: [.send])).1, []) := by
  have h := nextId_survives_reset (⟨5, [2]⟩ : RpcState) [.send, .send] [.send]
    1 false (by decide)
  exact ⟨h.1, h.2.2.1, h.2.2.2⟩

end VoiceAnki
